import Mathlib

/-!
# Verification of the autonomous-ai-server task orchestration core

A shallow embedding, in Lean 4, of the multi-agent orchestration engine of
`src/index.ts` (class `MultiAgentOrchestrator`) and of the companion
`ResourceManager` (`src/resource-manager.ts`), together with theorems that
settle the frozen claims about the natural-language specification.

Modelling conventions:
* JavaScript `Map<string, T>` fields become association lists
  `List (String × T)`; `Map.set` updates an existing key in place (keeping
  insertion order) and appends a fresh key at the end, exactly as the JS
  `Map` does (`setA` below).
* Wall-clock timestamps (`Date.now()`, ISO strings) and the randomly
  generated identifiers are nondeterministic inputs; they are passed to
  each operation as explicit parameters (`now`, `genId`).
* Fallible operations return `Except`/`Option`; a thrown JS `Error` is an
  `.error` value.
* The randomized type-dispatch execution strategies and the filesystem are
  external collaborators; their outcomes are oracle parameters.
* JS numbers that take part in arithmetic relevant to the claims (scores,
  averages, utilization percentages) are embedded as rationals; counters
  and timestamps as `Nat`.
-/

namespace AutoAI

/-! ## Association-list maps (JS `Map<string, T>`) -/

/-- `Map.get(k)`: value of the entry with key `k`, if present. -/
def lookupA {α : Type} : List (String × α) → String → Option α
  | [], _ => none
  | p :: rest, k => if p.1 = k then some p.2 else lookupA rest k

/-- `Map.set(k, v)`: JS `Map.set` overwrites an existing key in place,
preserving insertion order, and appends a new key at the end. -/
def setA {α : Type} : List (String × α) → String → α → List (String × α)
  | [], k, v => [(k, v)]
  | p :: rest, k, v => if p.1 = k then (k, v) :: rest else p :: setA rest k v

/-- `Map.has(k)`. -/
def hasA {α : Type} (m : List (String × α)) (k : String) : Bool :=
  (lookupA m k).isSome

theorem lookupA_setA {α : Type} (m : List (String × α)) (k k' : String) (v : α) :
    lookupA (setA m k v) k' = if k' = k then some v else lookupA m k' := by
  induction m with
  | nil =>
    by_cases h : k' = k
    · simp [setA, lookupA, h]
    · have h2 : ¬ (k = k') := fun hc => h hc.symm
      simp [setA, lookupA, h, h2]
  | cons p rest ih =>
    by_cases hp : p.1 = k
    · by_cases h : k' = k
      · simp [setA, lookupA, hp, h]
      · have h2 : ¬ (k = k') := fun hc => h hc.symm
        have h3 : ¬ (p.1 = k') := fun hc => h (hc.symm.trans hp)
        simp [setA, lookupA, hp, h, h2, h3]
    · by_cases hk : p.1 = k'
      · have hne : ¬ (k' = k) := fun hc => hp (hk.trans hc)
        simp [setA, lookupA, hp, hk, hne]
      · simp [setA, lookupA, hp, hk, ih]

theorem lookupA_setA_self {α : Type} (m : List (String × α)) (k : String) (v : α) :
    lookupA (setA m k v) k = some v := by
  simp [lookupA_setA]

theorem lookupA_setA_ne {α : Type} (m : List (String × α)) (k k' : String) (v : α)
    (h : k' ≠ k) : lookupA (setA m k v) k' = lookupA m k' := by
  simp [lookupA_setA, h]

theorem mem_of_lookupA_eq_some {α : Type} {m : List (String × α)} {k : String} {v : α}
    (h : lookupA m k = some v) : (k, v) ∈ m := by
  induction m with
  | nil => simp [lookupA] at h
  | cons p rest ih =>
    by_cases hp : p.1 = k
    · simp only [lookupA, hp, if_pos] at h
      have : p = (k, v) := by
        cases p
        simp_all
      exact this ▸ List.mem_cons_self _ _
    · simp only [lookupA, hp, if_neg, ite_false] at h
      exact List.mem_cons_of_mem _ (ih h)

theorem lookupA_eq_none_forall {α : Type} {m : List (String × α)} {k : String}
    (h : lookupA m k = none) : ∀ p ∈ m, p.1 ≠ k := by
  intro p hp
  induction m with
  | nil => simp at hp
  | cons q rest ih =>
    by_cases hq : q.1 = k
    · simp [lookupA, hq] at h
    · rcases List.mem_cons.mp hp with h1 | h2
      · exact h1 ▸ hq
      · simp only [lookupA, hq, if_neg, ite_false] at h
        exact ih h h2

theorem mem_setA {α : Type} {m : List (String × α)} {k : String} {v : α} {p : String × α}
    (h : p ∈ setA m k v) : p = (k, v) ∨ p ∈ m := by
  induction m with
  | nil => simpa [setA] using h
  | cons q rest ih =>
    by_cases hq : q.1 = k
    · simp only [setA, hq, if_pos] at h
      rcases List.mem_cons.mp h with h1 | h2
      · exact Or.inl h1
      · exact Or.inr (List.mem_cons_of_mem _ h2)
    · simp only [setA, hq, if_neg, ite_false] at h
      rcases List.mem_cons.mp h with h1 | h2
      · exact Or.inr (h1 ▸ List.mem_cons_self _ _)
      · rcases ih h2 with h3 | h4
        · exact Or.inl h3
        · exact Or.inr (List.mem_cons_of_mem _ h4)

/-- Keys of an association map are pairwise distinct; JS `Map` guarantees
this, and `setA` preserves it. -/
def NodupKeys {α : Type} (m : List (String × α)) : Prop :=
  (m.map Prod.fst).Nodup

theorem mem_setA_of_nodup {α : Type} {m : List (String × α)} {k : String} {v : α}
    {p : String × α} (hnd : NodupKeys m) (h : p ∈ setA m k v) :
    p = (k, v) ∨ (p ∈ m ∧ p.1 ≠ k) := by
  induction m with
  | nil => simpa [setA] using h
  | cons q rest ih =>
    have hnd' : NodupKeys rest := by
      unfold NodupKeys at hnd ⊢
      simpa using hnd.of_cons
    by_cases hq : q.1 = k
    · simp only [setA, hq, if_pos] at h
      rcases List.mem_cons.mp h with h1 | h2
      · exact Or.inl h1
      · right
        refine ⟨List.mem_cons_of_mem _ h2, ?_⟩
        intro hc
        unfold NodupKeys at hnd
        simp only [List.map_cons, List.nodup_cons] at hnd
        exact hnd.1 (hq ▸ hc ▸ List.mem_map_of_mem Prod.fst h2)
    · simp only [setA, hq, if_neg, ite_false] at h
      rcases List.mem_cons.mp h with h1 | h2
      · subst h1
        exact Or.inr ⟨List.mem_cons_self _ _, hq⟩
      · rcases ih hnd' h2 with h3 | h4
        · exact Or.inl h3
        · exact Or.inr ⟨List.mem_cons_of_mem _ h4.1, h4.2⟩

/-! ## ResourceManager (`src/resource-manager.ts`)

The checkpoint store and emergency-dump store are modelled as association
maps from file names (relative to the `.checkpoints` / `.emergency-dumps`
directories) to the structured records the source serializes as JSON.
Filesystem writes can fail; each write attempt therefore takes a
`WriteResult` oracle describing whether the underlying `fs-extra` call
resolves or rejects. -/

/-- Outcome of one filesystem write attempt (`fs.writeJson`, `fs.copy`,
`fs.writeFile` reject on I/O errors). -/
inductive WriteResult : Type
  | ok : WriteResult
  | err (msg : String) : WriteResult
  deriving DecidableEq, Repr

/-- `TaskCheckpoint` as in `resource-manager.ts`; the opaque `context`,
`modelState` and `memorySnapshot` payloads are strings here. -/
structure TaskCheckpoint where
  taskId : String
  agentId : String
  status : String
  progress : ℚ
  context : String
  intermediateResults : List String
  dependencies : List String
  startTime : Nat
  lastUpdate : Nat
  modelState : String
  memorySnapshot : String
  deriving DecidableEq, Repr

/-- The object written to `<checkpointId>.json`: the spread of the
checkpoint plus `checkpointId`, `savedAt` and `version` (the added keys do
not collide with checkpoint fields, so nesting is faithful). -/
structure CheckpointRecord where
  cp : TaskCheckpoint
  checkpointId : String
  savedAt : Nat
  version : String
  deriving DecidableEq, Repr

/-- The quick recovery pointer written to `quick_<taskId>.json`. -/
structure QuickRecovery where
  taskId : String
  checkpointId : String
  checkpointPath : String
  lastUpdate : Nat
  deriving DecidableEq, Repr

/-- Contents of the `.checkpoints` directory: `checkpoint_*` records and
`quick_*` pointers (the two name families never collide). -/
structure CheckpointFS where
  records : List (String × CheckpointRecord)
  quick : List (String × QuickRecovery)
  deriving Repr

/-- `saveTaskCheckpoint`: writes the timestamped record, then the quick
recovery pointer keyed by taskId, and returns the checkpoint id.
`Date.now()` is the `now` parameter. -/
def saveTaskCheckpoint (fs : CheckpointFS) (cp : TaskCheckpoint) (now : Nat) :
    CheckpointFS × String :=
  let checkpointId := "checkpoint_" ++ cp.taskId ++ "_" ++ toString now
  let checkpointPath := checkpointId ++ ".json"
  let data : CheckpointRecord :=
    { cp := cp, checkpointId := checkpointId, savedAt := now, version := "1.0" }
  let fs1 := { fs with records := setA fs.records checkpointPath data }
  let quickRec : QuickRecovery :=
    { taskId := cp.taskId, checkpointId := checkpointId,
      checkpointPath := checkpointPath, lastUpdate := now }
  let fs2 := { fs1 with quick := setA fs1.quick ("quick_" ++ cp.taskId ++ ".json") quickRec }
  (fs2, checkpointId)

/-- `loadTaskCheckpoint`: resolves the quick pointer, then loads the full
record; any failure (missing pointer or record — `readJson` rejecting is
caught) yields `none`. -/
def loadTaskCheckpoint (fs : CheckpointFS) (taskId : String) : Option CheckpointRecord :=
  match lookupA fs.quick ("quick_" ++ taskId ++ ".json") with
  | none => none
  | some q => lookupA fs.records q.checkpointPath

/-- Contents of the `.emergency-dumps` directory; the serialized payloads
are opaque strings. -/
structure DumpFS where
  dumps : List (String × String)
  deriving Repr

/-- The fallback branch of the catch block in `emergencyDump`: writes
`basic_<dumpId>.txt` with `await fs.writeFile`, whose rejection is NOT
caught and therefore propagates to the caller of `emergencyDump`. -/
def emergencyDumpFallback (fs : DumpFS) (reason dumpId caught : String)
    (fallback : WriteResult) : DumpFS × Except String String :=
  match fallback with
  | .ok =>
    let basicInfo := "Emergency Dump: " ++ dumpId ++ " Reason: " ++ reason ++ " Error: " ++ caught
    ({ fs with dumps := setA fs.dumps ("basic_" ++ dumpId ++ ".txt") basicInfo }, .ok dumpId)
  | .err e2 => (fs, .error e2)

/-- `emergencyDump`: tries to write the full JSON record to
`<dumpId>.json` and copy it to `latest_emergency_dump.json`; if either
write rejects, falls into the catch block (`emergencyDumpFallback`).
The full record payload is opaque (`reason` tags it); `dumpId` is the
generated unique id, and `primary` / `copyRes` / `fallback` are the
outcomes of the three filesystem operations. -/
def emergencyDump (fs : DumpFS) (reason dumpId : String)
    (primary copyRes fallback : WriteResult) : DumpFS × Except String String :=
  match primary with
  | .err e => emergencyDumpFallback fs reason dumpId e fallback
  | .ok =>
    let fs1 := { fs with dumps := setA fs.dumps (dumpId ++ ".json") ("dump:" ++ reason) }
    match copyRes with
    | .err e => emergencyDumpFallback fs1 reason dumpId e fallback
    | .ok =>
      ({ fs1 with dumps := setA fs1.dumps "latest_emergency_dump.json" ("dump:" ++ reason) },
       .ok dumpId)

/-! ### Resource pressure monitoring and callbacks

Callbacks are identified by numeric tokens; the `invoked` field is a ghost
log recording, in order, every callback invocation the monitor performs
(the source awaits each callback inside `handleCriticalRAMUsage` /
`handleWarningRAMUsage`). -/

/-- The four configurable thresholds (defaults 95 / 85 / 95 / 90). -/
structure Thresholds where
  ramCritical : ℚ
  ramWarning : ℚ
  vramCritical : ℚ
  vramWarning : ℚ
  deriving DecidableEq, Repr

/-- `setThresholds` takes a partial record; `none` keeps the old value. -/
structure ThresholdPatch where
  ramCritical : Option ℚ
  ramWarning : Option ℚ
  vramCritical : Option ℚ
  vramWarning : Option ℚ
  deriving DecidableEq, Repr

/-- The slice of `ResourceMetrics` that drives `checkResourcePressure`. -/
structure PressureMetrics where
  ramUtilization : ℚ
  vramUtilization : ℚ
  deriving DecidableEq, Repr

inductive CallbackKind : Type
  | emergency
  | pauseCb
  | resumeCb
  deriving DecidableEq, Repr

/-- ResourceManager state: registered callbacks, thresholds, the dump
store, and the ghost invocation log. -/
structure RMState where
  thresholds : Thresholds
  emergencyCallbacks : List Nat
  pauseCallbacks : List Nat
  resumeCallbacks : List Nat
  dumps : List String
  invoked : List (CallbackKind × Nat)
  deriving Repr

/-- `handleCriticalRAMUsage`: emergency dump, then every registered
emergency callback (failures are caught per callback). -/
def handleCriticalRAMUsage (s : RMState) : RMState :=
  let s1 := { s with dumps := s.dumps ++ ["critical-ram-usage"] }
  { s1 with invoked := s1.invoked ++ s1.emergencyCallbacks.map (fun c => (CallbackKind.emergency, c)) }

/-- `handleWarningRAMUsage`: every registered pause callback (failures are
caught per callback). -/
def handleWarningRAMUsage (s : RMState) : RMState :=
  { s with invoked := s.invoked ++ s.pauseCallbacks.map (fun c => (CallbackKind.pauseCb, c)) }

/-- `handleCriticalVRAMUsage` / `handleWarningVRAMUsage` only log; they
invoke no callbacks. -/
def handleVRAMUsage (s : RMState) : RMState := s

/-- `checkResourcePressure` classifies one metrics sample against the
thresholds: critical RAM → emergency handling, else warning RAM → pause
handling; independently, critical VRAM → model unloading, else warning
VRAM → queueing (both no-op hooks). -/
def checkResourcePressure (s : RMState) (m : PressureMetrics) : RMState :=
  let s1 :=
    if s.thresholds.ramCritical ≤ m.ramUtilization then handleCriticalRAMUsage s
    else if s.thresholds.ramWarning ≤ m.ramUtilization then handleWarningRAMUsage s
    else s
  if s1.thresholds.vramCritical ≤ m.vramUtilization then handleVRAMUsage s1
  else if s1.thresholds.vramWarning ≤ m.vramUtilization then handleVRAMUsage s1
  else s1

/-- One externally observable ResourceManager operation: a monitoring
sample firing `checkResourcePressure`, a callback registration, or a
threshold update. -/
inductive RMOp : Type
  | sample (m : PressureMetrics)
  | onEmergency (c : Nat)
  | onPause (c : Nat)
  | onResume (c : Nat)
  | setThresholds (p : ThresholdPatch)
  deriving Repr

/-- Apply one operation (`onEmergency`/`onPause`/`onResume` push the
callback; `setThresholds` merges the patch). -/
def applyRMOp (s : RMState) : RMOp → RMState
  | .sample m => checkResourcePressure s m
  | .onEmergency c => { s with emergencyCallbacks := s.emergencyCallbacks ++ [c] }
  | .onPause c => { s with pauseCallbacks := s.pauseCallbacks ++ [c] }
  | .onResume c => { s with resumeCallbacks := s.resumeCallbacks ++ [c] }
  | .setThresholds p =>
      { s with thresholds :=
          { ramCritical := p.ramCritical.getD s.thresholds.ramCritical,
            ramWarning := p.ramWarning.getD s.thresholds.ramWarning,
            vramCritical := p.vramCritical.getD s.thresholds.vramCritical,
            vramWarning := p.vramWarning.getD s.thresholds.vramWarning } }

/-- Run a sequence of ResourceManager operations. -/
def runRM (s : RMState) : List RMOp → RMState
  | [] => s
  | op :: ops => runRM (applyRMOp s op) ops

/-- The resume invocations recorded in the ghost log. -/
def resumeInvocations (s : RMState) : List (CallbackKind × Nat) :=
  s.invoked.filter (fun p => p.1 = CallbackKind.resumeCb)

/-! ## Orchestrator data model (`src/index.ts`) -/

inductive TaskStatus : Type
  | pending
  | assigned
  | in_progress
  | completed
  | failed
  | cancelled
  deriving DecidableEq, Repr

/-- A status is terminal when no further work happens on the task. -/
def TaskStatus.isTerminal : TaskStatus → Bool
  | .completed => true
  | .failed => true
  | .cancelled => true
  | _ => false

inductive TaskType : Type
  | research
  | analysis
  | coding
  | testing
  | documentation
  | planning
  | custom
  deriving DecidableEq, Repr

inductive TaskPriority : Type
  | low
  | medium
  | high
  | critical
  deriving DecidableEq, Repr

inductive AgentStatus : Type
  | idle
  | busy
  | error
  | offline
  deriving DecidableEq, Repr

/-- `AgentConfig` of `index.ts`. -/
structure AgentConfig where
  id : String
  name : String
  role : String
  capabilities : List String
  systemPrompt : String
  maxTokens : Option Nat
  temperature : Option ℚ
  tools : Option (List String)
  parentAgentId : Option String
  priority : TaskPriority
  timeout : Option Nat
  deriving DecidableEq, Repr

/-- `Task` of `index.ts`; timestamps are `Nat`, the opaque `result`
payload a `String`. -/
structure Task where
  id : String
  description : String
  type : TaskType
  priority : TaskPriority
  assignedAgentId : Option String
  status : TaskStatus
  dependencies : List String
  result : Option String
  error : Option String
  createdAt : Nat
  startedAt : Option Nat
  completedAt : Option Nat
  estimatedDuration : Option Nat
  actualDuration : Option Nat
  parentTaskId : Option String
  subtasks : List String
  deriving DecidableEq, Repr

/-- The `performance` sub-record of `AgentState`. -/
structure Performance where
  tasksCompleted : Nat
  tasksSuccessful : Nat
  averageTaskDuration : ℚ
  lastActiveAt : Nat
  deriving DecidableEq, Repr

/-- The `resources` sub-record of `AgentState`. -/
structure AgentResources where
  memoryUsage : ℚ
  cpuUsage : ℚ
  activeConnections : Nat
  deriving DecidableEq, Repr

/-- `AgentState` of `index.ts`. -/
structure AgentState where
  id : String
  status : AgentStatus
  currentTask : Option String
  taskQueue : List String
  performance : Performance
  resources : AgentResources
  capabilities : List String
  specializations : List String
  deriving DecidableEq, Repr

inductive MessageType : Type
  | task_assignment
  | task_result
  | collaboration_request
  | status_update
  | error_report
  deriving DecidableEq, Repr

/-- The `content : any` payload of an `AgentMessage`, restricted to the
fields the five handlers destructure (`taskId`, `result`, `error`,
`requestType`, `instructions`); absent keys are `none`. -/
structure MessageContent where
  taskId : Option String
  result : Option String
  error : Option String
  requestType : Option String
  instructions : Option String
  deriving DecidableEq, Repr

/-- `AgentMessage` of `index.ts`. -/
structure AgentMessage where
  id : String
  fromAgentId : String
  toAgentId : String
  type : MessageType
  content : MessageContent
  timestamp : Nat
  priority : TaskPriority
  deriving DecidableEq, Repr

/-- A message as passed to `sendMessage` (`Omit<AgentMessage, 'id' |
'timestamp'>`). -/
structure MessageDraft where
  fromAgentId : String
  toAgentId : String
  type : MessageType
  content : MessageContent
  priority : TaskPriority
  deriving DecidableEq, Repr

/-- The mutable maps of `MultiAgentOrchestrator`, plus a ghost
`dispatchLog` recording one entry per message dispatch (reaching the
`switch (message.type)` of `processMessage`). -/
structure OState where
  agents : List (String × AgentConfig)
  agentStates : List (String × AgentState)
  tasks : List (String × Task)
  messageQueue : List AgentMessage
  collaborationGraph : List (String × List String)
  dispatchLog : List (String × MessageType)
  deriving Repr

/-- The orchestrator right after construction: every map empty. -/
def emptyO : OState :=
  { agents := [], agentStates := [], tasks := [], messageQueue := [],
    collaborationGraph := [], dispatchLog := [] }

/-! ## Agent management -/

/-- `validateAgentConfig`: returns the error message thrown, if any.
JS truthiness: a missing-or-empty string fails the `!config.id` style
checks. -/
def validateAgentConfig (config : AgentConfig) : Option String :=
  if config.id = "" ∨ config.name = "" ∨ config.role = "" then
    some "Agent must have id, name, and role"
  else if config.capabilities = [] then
    some "Agent must have at least one capability"
  else if config.systemPrompt = "" then
    some "Agent must have a system prompt"
  else none

/-- `deriveSpecializations`: keyword matching on capabilities and role.
The role checks are substring tests on the lowercased role. -/
def deriveSpecializations (config : AgentConfig) : List String :=
  (if config.capabilities.contains "coding" then ["software_development"] else []) ++
  (if config.capabilities.contains "research" then ["information_gathering"] else []) ++
  (if config.capabilities.contains "analysis" then ["data_analysis"] else []) ++
  (if (config.role.toLower.splitOn "test").length > 1 then ["quality_assurance"] else []) ++
  (if (config.role.toLower.splitOn "doc").length > 1 then ["technical_writing"] else [])

/-- `addCollaborationLink`: ensure the adjacency row exists, then append
the collaborator if not already present. -/
def addCollaborationLink (g : List (String × List String)) (fromA toA : String) :
    List (String × List String) :=
  let g1 := if hasA g fromA then g else setA g fromA []
  let collaborators := (lookupA g1 fromA).getD []
  if collaborators.contains toA then g1
  else setA g1 fromA (collaborators ++ [toA])

/-- `createAgent`: duplicate-id check, validation, then stores the config,
the initial idle state, and the optional parent collaboration link.
`now` stands for `new Date().toISOString()`. -/
def createAgent (s : OState) (now : Nat) (config : AgentConfig) :
    OState × Except String String :=
  if hasA s.agents config.id then
    (s, .error "Agent already exists")
  else
    match validateAgentConfig config with
    | some msg => (s, .error msg)
    | none =>
      let initialState : AgentState :=
        { id := config.id, status := .idle, currentTask := none, taskQueue := [],
          performance := { tasksCompleted := 0, tasksSuccessful := 0,
                           averageTaskDuration := 0, lastActiveAt := now },
          resources := { memoryUsage := 0, cpuUsage := 0, activeConnections := 0 },
          capabilities := config.capabilities,
          specializations := deriveSpecializations config }
      let s1 := { s with agents := setA s.agents config.id config,
                         agentStates := setA s.agentStates config.id initialState }
      let s2 :=
        match config.parentAgentId with
        | some parent =>
            if parent = "" then s1
            else { s1 with collaborationGraph := addCollaborationLink s1.collaborationGraph parent config.id }
        | none => s1
      (s2, .ok config.id)

/-! ## Task management -/

/-- `Partial<Task>` as accepted by `createTask`: a field is `none` when
the key is absent from the partial object. -/
structure TaskConfig where
  id : Option String
  description : Option String
  type : Option TaskType
  priority : Option TaskPriority
  assignedAgentId : Option String
  status : Option TaskStatus
  dependencies : Option (List String)
  result : Option String
  error : Option String
  createdAt : Option Nat
  startedAt : Option Nat
  completedAt : Option Nat
  estimatedDuration : Option Nat
  actualDuration : Option Nat
  parentTaskId : Option String
  subtasks : Option (List String)
  deriving DecidableEq, Repr

/-- A `Partial<Task>` with every key absent. -/
def emptyTaskConfig : TaskConfig :=
  { id := none, description := none, type := none, priority := none,
    assignedAgentId := none, status := none, dependencies := none,
    result := none, error := none, createdAt := none, startedAt := none,
    completedAt := none, estimatedDuration := none, actualDuration := none,
    parentTaskId := none, subtasks := none }

/-- `createTask` builds `{ id: taskId, ...defaults, ...taskConfig }`: the
spread of the caller config comes LAST, so any key present in the partial
config — including `id` and `status` — overrides the generated id and the
defaults. The task is stored under (and the function returns) the
generated `genId` regardless. -/
def createTask (s : OState) (genId : String) (now : Nat) (cfg : TaskConfig) :
    OState × String :=
  let task : Task :=
    { id := cfg.id.getD genId,
      description := cfg.description.getD "Unnamed task",
      type := cfg.type.getD .custom,
      priority := cfg.priority.getD .medium,
      assignedAgentId := cfg.assignedAgentId,
      status := cfg.status.getD .pending,
      dependencies := cfg.dependencies.getD [],
      result := cfg.result,
      error := cfg.error,
      createdAt := cfg.createdAt.getD now,
      startedAt := cfg.startedAt,
      completedAt := cfg.completedAt,
      estimatedDuration := cfg.estimatedDuration,
      actualDuration := cfg.actualDuration,
      parentTaskId := cfg.parentTaskId,
      subtasks := cfg.subtasks.getD [] }
  ({ s with tasks := setA s.tasks genId task }, genId)

/-- `checkTaskDependencies`: a dependency is unmet unless its task exists
and has status completed; returns the unmet ids in order. -/
def checkTaskDependencies (s : OState) (task : Task) : List String :=
  task.dependencies.filter (fun depId =>
    match lookupA s.tasks depId with
    | none => true
    | some depTask => depTask.status ≠ .completed)

/-- `getTaskRequiredCapabilities`: the fixed per-type lookup table
(`custom` has no entry and yields the empty list). -/
def getTaskRequiredCapabilities : TaskType → List String
  | .research => ["research", "web_browsing", "data_collection"]
  | .analysis => ["analysis", "data_processing", "reasoning"]
  | .coding => ["coding", "programming", "software_development"]
  | .testing => ["testing", "quality_assurance", "debugging"]
  | .documentation => ["documentation", "writing", "technical_writing"]
  | .planning => ["planning", "project_management", "strategy"]
  | .custom => []

/-- `getTaskRequiredSpecializations`: the fixed per-type lookup table. -/
def getTaskRequiredSpecializations : TaskType → List String
  | .research => ["information_gathering", "data_analysis"]
  | .analysis => ["data_analysis", "statistical_analysis"]
  | .coding => ["software_development", "programming"]
  | .testing => ["quality_assurance", "test_automation"]
  | .documentation => ["technical_writing", "documentation"]
  | .planning => ["project_management", "strategic_planning"]
  | .custom => []

/-- Placeholder for the non-null assertion `this.agents.get(id)!` inside
`findBestAgent`: on a registry whose agent states all have a stored
config — which every reachable state satisfies — the placeholder is never
used (the source would instead throw a TypeError). -/
def missingConfig : AgentConfig :=
  { id := "", name := "", role := "", capabilities := [], systemPrompt := "",
    maxTokens := none, temperature := none, tools := none,
    parentAgentId := none, priority := .medium, timeout := none }

/-- The score one candidate receives in `findBestAgent` (source order:
capability matches × 10, specialization matches × 15, success-rate bonus
when `tasksSuccessful > 0`, priority match + 5, queue-length penalty × 2). -/
def agentScore (task : Task) (config : AgentConfig) (state : AgentState) : ℚ :=
  let taskCapabilities := getTaskRequiredCapabilities task.type
  let matchingCapabilities := config.capabilities.filter (fun c => taskCapabilities.contains c)
  let s1 : ℚ := (matchingCapabilities.length : ℚ) * 10
  let taskSpecializations := getTaskRequiredSpecializations task.type
  let matchingSpecializations := state.specializations.filter (fun sp => taskSpecializations.contains sp)
  let s2 : ℚ := s1 + (matchingSpecializations.length : ℚ) * 15
  let s3 : ℚ :=
    if 0 < state.performance.tasksSuccessful then
      s2 + (state.performance.tasksSuccessful : ℚ) / (state.performance.tasksCompleted : ℚ) * 5
    else s2
  let s4 : ℚ := if config.priority = task.priority then s3 + 5 else s3
  s4 - (state.taskQueue.length : ℚ) * 2

/-- Head of the stable descending sort
`scoredAgents.sort((a, b) => b.score - a.score)[0]`: the earliest element
whose score is maximal (JS `Array.prototype.sort` is stable). -/
def pickFirstMax : List (String × ℚ) → Option (String × ℚ)
  | [] => none
  | p :: rest =>
    match pickFirstMax rest with
    | none => some p
    | some q => if p.2 < q.2 then some q else some p

/-- `findBestAgent`: score the idle agents and return the best, or `null`
when no agent is idle. -/
def findBestAgent (s : OState) (task : Task) : Option String :=
  let availableAgents := s.agentStates.filter (fun p => p.2.status = .idle)
  let scoredAgents := availableAgents.map (fun p =>
    (p.1, agentScore task ((lookupA s.agents p.1).getD missingConfig) p.2))
  (pickFirstMax scoredAgents).map Prod.fst

/-- The errors `assignTask` can throw. -/
inductive AssignError : Type
  | taskNotFound
  | invalidState
  | noAgentAvailable
  | agentNotFound
  | dependencyError (unmet : List String)
  deriving DecidableEq, Repr

/-- The agent-resolution step of `assignTask`: `if (!agentId)` treats a
missing or empty id as absent and runs `findBestAgent`. -/
def resolveAgentId (s : OState) (task : Task) (agentId? : Option String) :
    Except AssignError String :=
  let explicit : Option String :=
    match agentId? with
    | some a => if a = "" then none else some a
    | none => none
  match explicit with
  | some a => .ok a
  | none =>
    match findBestAgent s task with
    | some a => .ok a
    | none => .error .noAgentAvailable

/-- `assignTask`: lookup, pending check, agent resolution, agent-state
lookup, dependency check, then the actual assignment (status `assigned`,
`assignedAgentId`, push onto the agent queue). Note that agent resolution
runs BEFORE the dependency check. -/
def assignTask (s : OState) (taskId : String) (agentId? : Option String) :
    OState × Except AssignError Unit :=
  match lookupA s.tasks taskId with
  | none => (s, .error .taskNotFound)
  | some task =>
    if task.status = .pending then
      match resolveAgentId s task agentId? with
      | .error e => (s, .error e)
      | .ok agentId =>
        match lookupA s.agentStates agentId with
        | none => (s, .error .agentNotFound)
        | some agentState =>
          let unmetDependencies := checkTaskDependencies s task
          if unmetDependencies = [] then
            let task1 := { task with assignedAgentId := some agentId, status := .assigned }
            let agentState1 := { agentState with taskQueue := agentState.taskQueue ++ [taskId] }
            ({ s with tasks := setA s.tasks taskId task1,
                      agentStates := setA s.agentStates agentId agentState1 }, .ok ())
          else
            (s, .error (.dependencyError unmetDependencies))
    else
      (s, .error .invalidState)

/-! ## Task execution -/

/-- Outcome of the randomized type-dispatch execution strategy for one
run: the source strategies wait a random delay and return a synthetic
result object (opaque here) or throw. -/
inductive StrategyOutcome : Type
  | success (result : String)
  | failure (errMsg : String)
  deriving DecidableEq, Repr

/-- `executeTaskByType`: looks up the assigned agent config (the missing
case throws "Agent not found", caught by the caller) and then dispatches
to the per-type strategy, whose outcome is the oracle `oc`. -/
def executeTaskByType (s : OState) (task : Task) (oc : StrategyOutcome) : StrategyOutcome :=
  match task.assignedAgentId with
  | none => .failure "Agent not found"
  | some agentId =>
    match lookupA s.agents agentId with
    | none => .failure "Agent not found"
    | some _ => oc

/-- `executeTask`: marks the task in progress and the agent busy, runs the
strategy, and on either outcome returns the agent to idle with no current
task, increments the completion counters, removes the task from the queue
and stores the terminal status; a strategy error is recorded on the task
and re-raised. `startNow` / `endNow` stand for the two `new Date()` reads. -/
def executeTask (s : OState) (taskId : String) (oc : StrategyOutcome)
    (startNow endNow : Nat) : OState × Except String String :=
  match lookupA s.tasks taskId with
  | none => (s, .error "Task not found or not assigned")
  | some task =>
    match task.assignedAgentId with
    | none => (s, .error "Task not found or not assigned")
    | some agentId =>
      match lookupA s.agentStates agentId with
      | none => (s, .error "Agent not found")
      | some agentState =>
        let task1 := { task with status := .in_progress, startedAt := some startNow }
        let agentState1 := { agentState with status := .busy, currentTask := some taskId }
        let s1 := { s with tasks := setA s.tasks taskId task1,
                           agentStates := setA s.agentStates agentId agentState1 }
        match executeTaskByType s1 task1 oc with
        | .success rv =>
          let dur := endNow - startNow
          let task2 := { task1 with status := .completed, completedAt := some endNow,
                                    result := some rv, actualDuration := some dur }
          let perf1 := { agentState1.performance with
                           tasksCompleted := agentState1.performance.tasksCompleted + 1,
                           tasksSuccessful := agentState1.performance.tasksSuccessful + 1 }
          let perf2 :=
            if dur ≠ 0 then
              { perf1 with averageTaskDuration :=
                  (perf1.averageTaskDuration * ((perf1.tasksCompleted : ℚ) - 1) + (dur : ℚ)) /
                    (perf1.tasksCompleted : ℚ) }
            else perf1
          let agentState2 := { agentState1 with status := .idle, currentTask := none,
                                                performance := perf2,
                                                taskQueue := agentState1.taskQueue.erase taskId }
          ({ s1 with tasks := setA s1.tasks taskId task2,
                     agentStates := setA s1.agentStates agentId agentState2 }, .ok rv)
        | .failure e =>
          let task2 := { task1 with status := .failed, error := some e,
                                    completedAt := some endNow }
          let perf2 := { agentState1.performance with
                           tasksCompleted := agentState1.performance.tasksCompleted + 1 }
          let agentState2 := { agentState1 with status := .idle, currentTask := none,
                                                performance := perf2,
                                                taskQueue := agentState1.taskQueue.erase taskId }
          ({ s1 with tasks := setA s1.tasks taskId task2,
                     agentStates := setA s1.agentStates agentId agentState2 }, .error e)

/-- `cancelTask`: no-op on an unknown task; otherwise sets the status to
cancelled — without inspecting the current status — stamps `completedAt`,
and if the task is assigned removes it from the agent queue and frees the
agent when it was the current task. Returns the source boolean. -/
def cancelTask (s : OState) (taskId : String) (now : Nat) : OState × Bool :=
  match lookupA s.tasks taskId with
  | none => (s, false)
  | some task =>
    let task1 := { task with status := .cancelled, completedAt := some now }
    let s1 := { s with tasks := setA s.tasks taskId task1 }
    match task.assignedAgentId with
    | none => (s1, true)
    | some agentId =>
      match lookupA s1.agentStates agentId with
      | none => (s1, true)
      | some agentState =>
        let agentState1 := { agentState with taskQueue := agentState.taskQueue.erase taskId }
        let agentState2 :=
          if agentState1.currentTask = some taskId then
            { agentState1 with currentTask := none, status := .idle }
          else agentState1
        ({ s1 with agentStates := setA s1.agentStates agentId agentState2 }, true)

/-! ## Collaboration and messages -/

/-- `createCollaboration`: validates that every agent exists, then adds
symmetric links between every pair; the generated collaboration id is
returned but never stored. -/
def createCollaborationLinks : List String → List (String × List String) → List (String × List String)
  | [], g => g
  | a :: rest, g =>
    let g1 := rest.foldl (fun acc b => addCollaborationLink (addCollaborationLink acc a b) b a) g
    createCollaborationLinks rest g1

/-- `createCollaboration` returning the missing agent id on failure. -/
def createCollaboration (s : OState) (agentIds : List String) :
    OState × Except String Unit :=
  match agentIds.find? (fun a => !(hasA s.agents a)) with
  | some missing => (s, .error missing)
  | none =>
    ({ s with collaborationGraph := createCollaborationLinks agentIds s.collaborationGraph }, .ok ())

/-- An exception escaping a message handler. -/
inductive HandlerError : Type
  | assign (e : AssignError)
  | collaboration (missingAgentId : String)
  deriving DecidableEq, Repr

/-- `handleTaskAssignmentMessage`: assigns the referenced task to the
target agent (errors from `assignTask` propagate). -/
def handleTaskAssignmentMessage (s : OState) (m : AgentMessage) :
    OState × Option HandlerError :=
  match m.content.taskId with
  | none => (s, none)
  | some taskId =>
    if taskId ≠ "" ∧ hasA s.tasks taskId then
      match assignTask s taskId (some m.toAgentId) with
      | (s1, .ok _) => (s1, none)
      | (s1, .error e) => (s1, some (.assign e))
    else (s, none)

/-- `handleTaskResultMessage`: stores the reported result and sets the
task completed — regardless of its current status, and without touching
any agent queue. -/
def handleTaskResultMessage (s : OState) (m : AgentMessage) : OState :=
  match m.content.taskId with
  | none => s
  | some taskId =>
    if taskId ≠ "" ∧ hasA s.tasks taskId then
      match lookupA s.tasks taskId with
      | none => s
      | some task =>
        let task1 := { task with result := m.content.result, status := .completed }
        { s with tasks := setA s.tasks taskId task1 }
    else s

/-- `handleCollaborationRequestMessage`: creates a two-party
collaboration (a missing `fromAgentId` makes `createCollaboration`
throw). -/
def handleCollaborationRequestMessage (s : OState) (m : AgentMessage) :
    OState × Option HandlerError :=
  match createCollaboration s [m.fromAgentId, m.toAgentId] with
  | (s1, .ok _) => (s1, none)
  | (s1, .error missing) => (s1, some (.collaboration missing))

/-- `handleStatusUpdateMessage`: refreshes `lastActiveAt` of the sender. -/
def handleStatusUpdateMessage (s : OState) (m : AgentMessage) (now : Nat) : OState :=
  match lookupA s.agentStates m.fromAgentId with
  | none => s
  | some agentState =>
    let agentState1 :=
      { agentState with performance := { agentState.performance with lastActiveAt := now } }
    { s with agentStates := setA s.agentStates m.fromAgentId agentState1 }

/-- `handleErrorReportMessage`: marks the referenced task failed with the
reported error — regardless of its current status, and without touching
any agent queue. -/
def handleErrorReportMessage (s : OState) (m : AgentMessage) : OState :=
  match m.content.taskId with
  | none => s
  | some taskId =>
    if taskId ≠ "" ∧ hasA s.tasks taskId then
      match lookupA s.tasks taskId with
      | none => s
      | some task =>
        let task1 := { task with status := .failed, error := m.content.error }
        { s with tasks := setA s.tasks taskId task1 }
    else s

/-- `processMessage`: drops the message when the target agent is unknown;
otherwise dispatches by type (the ghost `dispatchLog` records exactly the
dispatches that reach the `switch`). A handler exception is returned
alongside the state. -/
def processMessage (s : OState) (m : AgentMessage) (now : Nat) :
    OState × Option HandlerError :=
  match lookupA s.agentStates m.toAgentId with
  | none => (s, none)
  | some _ =>
    let s0 := { s with dispatchLog := s.dispatchLog ++ [(m.id, m.type)] }
    match m.type with
    | .task_assignment => handleTaskAssignmentMessage s0 m
    | .task_result => (handleTaskResultMessage s0 m, none)
    | .collaboration_request => handleCollaborationRequestMessage s0 m
    | .status_update => (handleStatusUpdateMessage s0 m now, none)
    | .error_report => (handleErrorReportMessage s0 m, none)

/-- `sendMessage`: builds the full message, pushes it onto the message
queue, and then processes it immediately — WITHOUT removing it from the
queue. The generated message id is returned; a handler exception
propagates to the caller. -/
def sendMessage (s : OState) (genId : String) (now : Nat) (draft : MessageDraft) :
    OState × String × Option HandlerError :=
  let fullMessage : AgentMessage :=
    { id := genId, fromAgentId := draft.fromAgentId, toAgentId := draft.toAgentId,
      type := draft.type, content := draft.content, timestamp := now,
      priority := draft.priority }
  let s1 := { s with messageQueue := s.messageQueue ++ [fullMessage] }
  let (s2, e) := processMessage s1 fullMessage now
  (s2, genId, e)

/-- `processMessageQueue` (run from every orchestrator tick): snapshots
and clears the queue, then processes every message, catching per-message
handler errors. -/
def processMessageQueue (s : OState) (now : Nat) : OState :=
  let messagesToProcess := s.messageQueue
  let s0 := { s with messageQueue := [] }
  messagesToProcess.foldl (fun st m => (processMessage st m now).1) s0

/-- Number of ghost-logged dispatches of the message with id `mid`. -/
def dispatchCount (s : OState) (mid : String) : Nat :=
  (s.dispatchLog.filter (fun p => p.1 = mid)).length

/-! ## Shared concrete fixtures -/

/-- A minimal valid agent configuration used by concrete runs. -/
def agentA1 : AgentConfig :=
  { id := "a1", name := "Agent One", role := "coder", capabilities := ["coding"],
    systemPrompt := "You write code.", maxTokens := none, temperature := none,
    tools := none, parentAgentId := none, priority := .medium, timeout := none }

/-- A message payload with every key absent. -/
def emptyContent : MessageContent :=
  { taskId := none, result := none, error := none, requestType := none,
    instructions := none }

/-! ## Claim C9 — checkpoint round-trip -/

/-- C9: for every checkpoint `cp`, loading `cp.taskId` directly after
saving `cp` (no intervening writes) returns a non-null record whose
taskId, status and progress equal those of `cp`. -/
theorem loadTaskCheckpoint_after_save (fs : CheckpointFS) (cp : TaskCheckpoint) (now : Nat) :
    (loadTaskCheckpoint (saveTaskCheckpoint fs cp now).1 cp.taskId).map
        (fun r => (r.cp.taskId, r.cp.status, r.cp.progress)) =
      some (cp.taskId, cp.status, cp.progress) := by
  unfold saveTaskCheckpoint loadTaskCheckpoint
  simp [lookupA_setA_self]

/-! ## Claim C8 — emergencyDump fallback -/

/-- C8 counterexample: when the JSON dump write and the fallback
plain-text write both reject (for example the disk is full), the
rejection of the unguarded `await fs.writeFile` in the catch block
propagates out of `emergencyDump` — refuting the claim that
`emergencyDump` never propagates an exception. -/
theorem emergencyDump_fallback_raises :
    (emergencyDump { dumps := [] } "critical-ram-usage" "d1"
        (WriteResult.err "ENOSPC") WriteResult.ok (WriteResult.err "ENOSPC")).2 =
      Except.error "ENOSPC" := rfl

/-- C8 (amended): `emergencyDump` catches any failure of the JSON dump
write or of the latest-pointer copy and falls back to the plain-text
record, returning the dump id without raising whenever that fallback
write succeeds; only a failure of the fallback write itself propagates. -/
theorem emergencyDump_ok_when_fallback_ok (fs : DumpFS) (reason dumpId : String)
    (primary copyRes : WriteResult) :
    (emergencyDump fs reason dumpId primary copyRes WriteResult.ok).2 =
      Except.ok dumpId := by
  cases primary <;> cases copyRes <;> rfl

/-! ## Claim C10 — resume callbacks are never invoked -/

theorem resumeInvocations_applyRMOp (s : RMState) (op : RMOp) :
    resumeInvocations (applyRMOp s op) = resumeInvocations s := by
  cases op with
  | sample m =>
    unfold applyRMOp checkResourcePressure handleCriticalRAMUsage handleWarningRAMUsage handleVRAMUsage
    unfold resumeInvocations
    by_cases h1 : s.thresholds.ramCritical ≤ m.ramUtilization
    · simp only [h1, if_true]
      by_cases h2 : s.thresholds.vramCritical ≤ m.vramUtilization
      · simp [h2, List.filter_append, List.filter_map]
      · by_cases h3 : s.thresholds.vramWarning ≤ m.vramUtilization
        · simp [h2, h3, List.filter_append, List.filter_map]
        · simp [h2, h3, List.filter_append, List.filter_map]
    · simp only [h1, if_false]
      by_cases h4 : s.thresholds.ramWarning ≤ m.ramUtilization
      · simp only [h4, if_true]
        by_cases h2 : s.thresholds.vramCritical ≤ m.vramUtilization
        · simp [h2, List.filter_append, List.filter_map]
        · by_cases h3 : s.thresholds.vramWarning ≤ m.vramUtilization
          · simp [h2, h3, List.filter_append, List.filter_map]
          · simp [h2, h3, List.filter_append, List.filter_map]
      · simp only [h4, if_false]
        by_cases h2 : s.thresholds.vramCritical ≤ m.vramUtilization
        · simp [h2]
        · by_cases h3 : s.thresholds.vramWarning ≤ m.vramUtilization
          · simp [h2, h3]
          · simp [h2, h3]
  | onEmergency c => rfl
  | onPause c => rfl
  | onResume c => rfl
  | setThresholds p => rfl

/-- C10: resume callbacks are stored by `onResume` but no ResourceManager
operation — monitoring samples with any metrics, registrations, threshold
updates — ever invokes one: after any operation sequence the ghost log
contains exactly the resume invocations it started with (none, from a
fresh manager). -/
theorem onResume_stored_but_never_invoked :
    (∀ (s : RMState) (c : Nat),
        (applyRMOp s (RMOp.onResume c)).resumeCallbacks = s.resumeCallbacks ++ [c]) ∧
    (∀ (s : RMState) (ops : List RMOp),
        resumeInvocations (runRM s ops) = resumeInvocations s) := by
  constructor
  · intro s c
    rfl
  · intro s ops
    induction ops generalizing s with
    | nil => rfl
    | cons op rest ih =>
      rw [runRM, ih, resumeInvocations_applyRMOp]

/-! ## Claim C1 — message dispatch multiplicity -/

/-- The failing run for C1: register agent a1, send one status_update
message m1 (accepted: the target agent exists), then run one orchestrator
drain of the message queue. -/
def c1State : OState :=
  let s1 := (createAgent emptyO 0 agentA1).1
  let s2 := (sendMessage s1 "m1" 5
    { fromAgentId := "a1", toAgentId := "a1", type := .status_update,
      content := emptyContent, priority := .medium }).1
  processMessageQueue s2 6

/-- C1: the type-specific handler of an accepted message runs TWICE — once
immediately inside `sendMessage` and once again when the next tick drains
the message queue, because `sendMessage` pushes the message onto
`messageQueue` and never removes it after the immediate dispatch. The
claimed exactly-once dispatch is violated by this run. -/
theorem sendMessage_dispatches_twice : dispatchCount c1State "m1" = 2 := by decide

/-! ## Claim C6 — createTask defaults and overrides -/

/-- A partial task config supplying its own `status` and `id`. -/
def c6Config : TaskConfig :=
  { emptyTaskConfig with status := some TaskStatus.completed, id := some "evil" }

/-- C6 counterexample: because `createTask` spreads the caller config
AFTER the defaults, a partial config carrying `status` or `id` overrides
them: the stored task has status `completed` (not `pending`) and id
`evil` (not the generated `task_1`), refuting the claim that the stored
status is pending and the id the generated one regardless of the supplied
fields. -/
theorem createTask_caller_overrides_status_and_id :
    ((lookupA (createTask emptyO "task_1" 0 c6Config).1.tasks "task_1").map Task.status =
        some TaskStatus.completed) ∧
    ((lookupA (createTask emptyO "task_1" 0 c6Config).1.tasks "task_1").map Task.id =
        some "evil") ∧
    TaskStatus.completed ≠ TaskStatus.pending ∧ ("evil" : String) ≠ "task_1" := by
  refine ⟨by decide, by decide, by decide, by decide⟩

/-- C6 (amended): `createTask` stores the task under, and returns, the
freshly generated id, and `type`/`priority`/`status`/`dependencies`
default to custom/medium/pending/[] when those keys are absent from the
partial config; but a key present in the partial config — including
`status` and `id` — overrides the default (the task field equals the
supplied value). -/
theorem createTask_defaults_and_overrides (s : OState) (genId : String) (now : Nat)
    (cfg : TaskConfig) :
    (createTask s genId now cfg).2 = genId ∧
    ∃ t, lookupA (createTask s genId now cfg).1.tasks genId = some t ∧
      t.id = cfg.id.getD genId ∧
      t.status = cfg.status.getD TaskStatus.pending ∧
      t.type = cfg.type.getD TaskType.custom ∧
      t.priority = cfg.priority.getD TaskPriority.medium ∧
      t.dependencies = cfg.dependencies.getD [] := by
  refine ⟨rfl, ?_⟩
  exact ⟨_, lookupA_setA_self _ _ _, rfl, rfl, rfl, rfl, rfl⟩

/-! ## Claim C3 — when assignTask raises DependencyError -/

theorem resolveAgentId_error_eq (s : OState) (task : Task) (aid? : Option String)
    (e : AssignError) (h : resolveAgentId s task aid? = .error e) :
    e = AssignError.noAgentAvailable := by
  unfold resolveAgentId at h
  cases aid? with
  | none =>
    cases hf : findBestAgent s task with
    | none =>
      rw [hf] at h
      simp only at h
      injection h with h2
      exact h2.symm
    | some a =>
      rw [hf] at h
      simp at h
  | some a =>
    by_cases ha : a = ""
    · simp only [ha, if_pos, ite_true] at h
      cases hf : findBestAgent s task with
      | none =>
        rw [hf] at h
        simp only at h
        injection h with h2
        exact h2.symm
      | some b =>
        rw [hf] at h
        simp at h
    · simp only [ha, if_neg, ite_false] at h
      simp at h

/-- The state of the C3 counterexample: one pending task t1 with an
unmet dependency t0, and no agents at all. -/
def c3State : OState :=
  (createTask emptyO "t1" 0 { emptyTaskConfig with dependencies := some ["t0"] }).1

/-- C3 counterexample: `assignTask` resolves the agent BEFORE checking
dependencies, so on a pending task with an unmet dependency but no idle
agent (agentId omitted) it fails with `NoAgentAvailableError`, not with
`DependencyError` — refuting the claimed if-and-only-if in exactly the
case the claim singles out. -/
theorem assignTask_noAgent_hides_dependencyError :
    (assignTask c3State "t1" none).2 = Except.error AssignError.noAgentAvailable ∧
    (lookupA c3State.tasks "t1").map (fun t => checkTaskDependencies c3State t) =
      some ["t0"] := by
  refine ⟨rfl, by decide⟩

/-- C3 (amended): for an existing pending task, `assignTask` fails with
`DependencyError` listing exactly the unmet dependency ids
(`checkTaskDependencies`: a dependency is unmet unless its task exists
with status completed) if and only if at least one dependency is unmet
AND agent resolution succeeded first — an explicit agent id that exists
in the registry, or, when the id is omitted, an idle agent found by
`findBestAgent`; when agent resolution fails the error is
`NoAgentAvailableError` (or `Agent not found`) even if dependencies are
unmet. -/
theorem assignTask_dependencyError_iff (s : OState) (tid : String)
    (aid? : Option String) (l : List String) :
    (assignTask s tid aid?).2 = Except.error (AssignError.dependencyError l) ↔
      ∃ task, lookupA s.tasks tid = some task ∧ task.status = TaskStatus.pending ∧
        (∃ a, resolveAgentId s task aid? = Except.ok a ∧
          (lookupA s.agentStates a).isSome = true) ∧
        l = checkTaskDependencies s task ∧ l ≠ [] := by
  cases h : lookupA s.tasks tid with
  | none =>
    have hval : (assignTask s tid aid?).2 = Except.error AssignError.taskNotFound := by
      simp [assignTask, h]
    rw [hval]
    constructor
    · intro hc
      simp at hc
    · rintro ⟨task', ht', _⟩
      simp at ht'
  | some task =>
    by_cases hp : task.status = TaskStatus.pending
    · cases hr : resolveAgentId s task aid? with
      | error e =>
        have he := resolveAgentId_error_eq s task aid? e hr
        subst he
        have hval : (assignTask s tid aid?).2 = Except.error AssignError.noAgentAvailable := by
          simp [assignTask, h, hp, hr]
        rw [hval]
        constructor
        · intro hc
          simp at hc
        · rintro ⟨task', ht', _, ⟨a, ha, _⟩, _, _⟩
          injection ht' with ht''
          subst ht''
          rw [hr] at ha
          simp at ha
      | ok a =>
        cases ha : lookupA s.agentStates a with
        | none =>
          have hval : (assignTask s tid aid?).2 = Except.error AssignError.agentNotFound := by
            simp [assignTask, h, hp, hr, ha]
          rw [hval]
          constructor
          · intro hc
            simp at hc
          · rintro ⟨task', ht', _, ⟨a', ha', hsome⟩, _, _⟩
            injection ht' with ht''
            subst ht''
            rw [hr] at ha'
            injection ha' with haa
            subst haa
            rw [ha] at hsome
            simp at hsome
        | some ast =>
          by_cases hd : checkTaskDependencies s task = []
          · have hval : (assignTask s tid aid?).2 = Except.ok () := by
              simp [assignTask, h, hp, hr, ha, hd]
            rw [hval]
            constructor
            · intro hc
              simp at hc
            · rintro ⟨task', ht', _, _, hl, hne⟩
              injection ht' with ht''
              subst ht''
              exact absurd (hl.trans hd) hne
          · have hval : (assignTask s tid aid?).2 =
                Except.error (AssignError.dependencyError (checkTaskDependencies s task)) := by
              simp [assignTask, h, hp, hr, ha, hd]
            rw [hval]
            constructor
            · intro hc
              have hinj : AssignError.dependencyError (checkTaskDependencies s task) =
                  AssignError.dependencyError l := by
                injection hc
              have hl : checkTaskDependencies s task = l := by
                injection hinj
              refine ⟨task, rfl, hp, ⟨a, hr, ?_⟩, hl.symm, hl ▸ hd⟩
              rw [ha]
              rfl
            · rintro ⟨task', ht', _, _, hl, _⟩
              injection ht' with ht''
              subst ht''
              rw [hl]
    · have hval : (assignTask s tid aid?).2 = Except.error AssignError.invalidState := by
        simp [assignTask, h, hp]
      rw [hval]
      constructor
      · intro hc
        simp at hc
      · rintro ⟨task', ht', hpend, _, _, _⟩
        injection ht' with ht''
        subst ht''
        exact absurd hpend hp

/-! ## Claim C5 — executeTask bookkeeping on success and failure -/

/-- C5: when a task is assigned to an existing agent (live state and
stored config), `executeTask` always leaves that agent idle with no
current task and with the task no longer queued; and when the execution
strategy fails, the task is marked failed with the error message and
`completedAt` stored, `tasksCompleted` is incremented without
incrementing `tasksSuccessful`, and the original error is re-raised to
the caller. -/
theorem executeTask_idle_and_failure_contract
    (s : OState) (tid : String) (oc : StrategyOutcome) (startNow endNow : Nat)
    (task : Task) (aid : String) (ast : AgentState) (cfg : AgentConfig)
    (htask : lookupA s.tasks tid = some task)
    (hassigned : task.assignedAgentId = some aid)
    (hstate : lookupA s.agentStates aid = some ast)
    (hcfg : lookupA s.agents aid = some cfg)
    (hcount : ast.taskQueue.count tid ≤ 1) :
    ∃ ast2, lookupA (executeTask s tid oc startNow endNow).1.agentStates aid = some ast2 ∧
      ast2.status = AgentStatus.idle ∧
      ast2.currentTask = none ∧
      tid ∉ ast2.taskQueue ∧
      (∀ e, oc = StrategyOutcome.failure e →
        (executeTask s tid oc startNow endNow).2 = Except.error e ∧
        (∃ t2, lookupA (executeTask s tid oc startNow endNow).1.tasks tid = some t2 ∧
          t2.status = TaskStatus.failed ∧ t2.error = some e ∧
          t2.completedAt = some endNow) ∧
        ast2.performance.tasksCompleted = ast.performance.tasksCompleted + 1 ∧
        ast2.performance.tasksSuccessful = ast.performance.tasksSuccessful) := by
  have hnotmem : tid ∉ ast.taskQueue.erase tid := by
    have h0 : (ast.taskQueue.erase tid).count tid = 0 := by
      rw [List.count_erase_self]
      omega
    exact List.count_eq_zero.mp h0
  cases oc with
  | success rv =>
    simp only [executeTask, executeTaskByType, htask, hassigned, hstate, hcfg]
    refine ⟨_, lookupA_setA_self _ _ _, rfl, rfl, hnotmem, ?_⟩
    intro e he
    exact absurd he (by simp)
  | failure e0 =>
    simp only [executeTask, executeTaskByType, htask, hassigned, hstate, hcfg]
    refine ⟨_, lookupA_setA_self _ _ _, rfl, rfl, hnotmem, ?_⟩
    intro e he
    injection he with he0
    subst he0
    exact ⟨rfl, ⟨_, lookupA_setA_self _ _ _, rfl, rfl, rfl⟩, rfl, rfl⟩

/-- A reachable state with agent a1 and task t1 assigned to it. -/
def assignedState : OState :=
  let s1 := (createAgent emptyO 0 agentA1).1
  let s2 := (createTask s1 "t1" 1 emptyTaskConfig).1
  (assignTask s2 "t1" (some "a1")).1

/-- C5 witness: the contract evaluated on the concrete assigned state
with a failing strategy. -/
theorem executeTask_idle_and_failure_contract_witness :
    (executeTask assignedState "t1" (StrategyOutcome.failure "boom") 2 3).2 =
      Except.error "boom" := by
  obtain ⟨ast2, hl, hidle, hcur, hq, hfail⟩ :=
    executeTask_idle_and_failure_contract assignedState "t1"
      (StrategyOutcome.failure "boom") 2 3 _ "a1" _ _ rfl rfl rfl rfl (by decide)
  exact (hfail "boom" rfl).1

/-! ## Claim C2 — status transitions -/

/-- The reachable state in which t1 has been executed to completion. -/
def completedState : OState :=
  (executeTask assignedState "t1" (StrategyOutcome.success "ok") 2 3).1

/-- C2 counterexample: after createAgent, createTask, assignTask and a
successful executeTask, task t1 is completed — a terminal status — yet a
subsequent `cancelTask` sets its status to cancelled, because
`cancelTask` never inspects the current status. A terminal task changes
status again, refuting the claimed monotonicity. -/
theorem cancelTask_overrides_terminal_status :
    ((lookupA completedState.tasks "t1").map Task.status = some TaskStatus.completed) ∧
    TaskStatus.isTerminal TaskStatus.completed = true ∧
    ((lookupA (cancelTask completedState "t1" 4).1.tasks "t1").map Task.status =
      some TaskStatus.cancelled) := by
  refine ⟨by decide, rfl, by decide⟩

/-- C2 (amended): the guarded part of the chain holds — `assignTask`
moves a task into `assigned` only from `pending`, and `cancelTask`
reaches `cancelled` from every status of every existing task, so in
particular cancellation is reachable from every non-terminal state. But
the statuses are not monotonic: the same unconditional `cancelTask`
write (and likewise `executeTask` and the task_result / error_report
handlers, which also never check the current status) can change the
status of a task that is already terminal. -/
theorem status_guard_only_on_assign :
    (∀ (s : OState) (tid : String) (aid? : Option String),
      (assignTask s tid aid?).2 = Except.ok () →
        (lookupA s.tasks tid).map Task.status = some TaskStatus.pending ∧
        (lookupA (assignTask s tid aid?).1.tasks tid).map Task.status =
          some TaskStatus.assigned) ∧
    (∀ (s : OState) (tid : String) (now : Nat) (task : Task),
      lookupA s.tasks tid = some task →
        (lookupA (cancelTask s tid now).1.tasks tid).map Task.status =
          some TaskStatus.cancelled) := by
  constructor
  · intro s tid aid? hok
    cases h : lookupA s.tasks tid with
    | none =>
      have hval : (assignTask s tid aid?).2 = Except.error AssignError.taskNotFound := by
        simp [assignTask, h]
      rw [hval] at hok
      simp at hok
    | some task =>
      by_cases hp : task.status = TaskStatus.pending
      · refine ⟨by simp [hp], ?_⟩
        cases hr : resolveAgentId s task aid? with
        | error e =>
          have hval : (assignTask s tid aid?).2 = Except.error e := by
            simp [assignTask, h, hp, hr]
          rw [hval] at hok
          simp at hok
        | ok a =>
          cases ha : lookupA s.agentStates a with
          | none =>
            have hval : (assignTask s tid aid?).2 = Except.error AssignError.agentNotFound := by
              simp [assignTask, h, hp, hr, ha]
            rw [hval] at hok
            simp at hok
          | some ast =>
            by_cases hd : checkTaskDependencies s task = []
            · have hmain : (assignTask s tid aid?).1 =
                  { s with
                    tasks := setA s.tasks tid
                      { task with assignedAgentId := some a, status := TaskStatus.assigned },
                    agentStates := setA s.agentStates a
                      { ast with taskQueue := ast.taskQueue ++ [tid] } } := by
                simp [assignTask, h, hp, hr, ha, hd]
              rw [hmain]
              simp only
              rw [lookupA_setA_self]
              rfl
            · have hval : (assignTask s tid aid?).2 =
                  Except.error (AssignError.dependencyError (checkTaskDependencies s task)) := by
                simp [assignTask, h, hp, hr, ha, hd]
              rw [hval] at hok
              simp at hok
      · have hval : (assignTask s tid aid?).2 = Except.error AssignError.invalidState := by
          simp [assignTask, h, hp]
        rw [hval] at hok
        simp at hok
  · intro s tid now task h
    have htasks : (cancelTask s tid now).1.tasks =
        setA s.tasks tid { task with status := TaskStatus.cancelled, completedAt := some now } := by
      cases hA : task.assignedAgentId with
      | none => simp [cancelTask, h, hA]
      | some aid =>
        cases hS : lookupA s.agentStates aid with
        | none => simp [cancelTask, h, hA, hS]
        | some ast => simp [cancelTask, h, hA, hS]
    rw [htasks, lookupA_setA_self]
    rfl

/-- C2 amended-claim witness: the guards evaluated on the concrete
assigned state — cancelling the (non-terminal) assigned task t1 yields
status cancelled. -/
theorem status_guard_only_on_assign_witness :
    (lookupA (cancelTask assignedState "t1" 9).1.tasks "t1").map Task.status =
      some TaskStatus.cancelled :=
  status_guard_only_on_assign.2 assignedState "t1" 9 _ rfl

/-! ## Claim C4 — no terminal task in any agent queue -/

/-- The spec invariant: no agent taskQueue contains a task whose status
is terminal (queue entries without a task record are vacuously fine). -/
def QueueInv (s : OState) : Prop :=
  ∀ p ∈ s.agentStates, ∀ tid ∈ p.2.taskQueue,
    ((lookupA s.tasks tid).all fun t => !t.status.isTerminal) = true

/-- Auxiliary occupancy facts about one task id that every reachable
state satisfies: the id occurs at most once per queue, and only in the
queue of the agent the task record names as its assignee. -/
def SingleOcc (s : OState) (tid : String) : Prop :=
  ∀ p ∈ s.agentStates,
    p.2.taskQueue.count tid ≤ 1 ∧
    (tid ∈ p.2.taskQueue →
      ((lookupA s.tasks tid).bind Task.assignedAgentId) = some p.1)

/-- The queues of all agents, in registry order. -/
def agentQueues (s : OState) : List (String × List String) :=
  s.agentStates.map (fun p => (p.1, p.2.taskQueue))

instance (s : OState) : Decidable (QueueInv s) := by
  unfold QueueInv
  infer_instance

instance (s : OState) (tid : String) : Decidable (SingleOcc s tid) := by
  unfold SingleOcc
  infer_instance

instance {α : Type} (m : List (String × α)) : Decidable (NodupKeys m) := by
  unfold NodupKeys
  infer_instance

theorem all_nonterminal_setA {tasks : List (String × Task)} {tid tid' : String} {t1 : Task}
    (hterm : t1.status.isTerminal = false)
    (hold : ((lookupA tasks tid').all fun t => !t.status.isTerminal) = true) :
    ((lookupA (setA tasks tid t1) tid').all fun t => !t.status.isTerminal) = true := by
  by_cases he : tid' = tid
  · subst he
    rw [lookupA_setA_self]
    simp [Option.all, hterm]
  · rw [lookupA_setA_ne _ _ _ _ he]
    exact hold

theorem keys_setA {α : Type} (m : List (String × α)) (k : String) (v : α) :
    (setA m k v).map Prod.fst =
      if hasA m k then m.map Prod.fst else m.map Prod.fst ++ [k] := by
  induction m with
  | nil => simp [setA, hasA, lookupA]
  | cons p rest ih =>
    by_cases hp : p.1 = k
    · simp [setA, hasA, lookupA, hp]
    · have hh : hasA (p :: rest) k = hasA rest k := by
        simp [hasA, lookupA, hp]
      by_cases hr : hasA rest k = true
      · simp [setA, hp, hh, hr, ih]
      · simp only [Bool.not_eq_true] at hr
        simp [setA, hp, hh, hr, ih]

theorem nodupKeys_setA {α : Type} {m : List (String × α)} {k : String} {v : α}
    (hnd : NodupKeys m) : NodupKeys (setA m k v) := by
  unfold NodupKeys at hnd ⊢
  rw [keys_setA]
  by_cases hh : hasA m k = true
  · simp [hh, hnd]
  · simp only [Bool.not_eq_true] at hh
    simp only [hh, Bool.false_eq_true, if_false]
    rw [List.nodup_append]
    refine ⟨hnd, List.nodup_singleton k, ?_⟩
    intro x hx hx1
    simp only [List.mem_singleton] at hx1
    subst hx1
    rcases List.mem_map.mp hx with ⟨p, hpmem, hpk⟩
    have : lookupA m x = none := by
      unfold hasA at hh
      exact Option.not_isSome_iff_eq_none.mp (by simp [hh])
    exact lookupA_eq_none_forall this p hpmem hpk

/-- Adding a non-terminal task record and replacing one agent state whose
queue only gains (possibly) the updated task id preserves the invariant. -/
theorem queueInv_nonterminal_update (s : OState) (tid aid : String) (task1 : Task)
    (ast ast1 : AgentState)
    (hInv : QueueInv s)
    (hS : lookupA s.agentStates aid = some ast)
    (hterm : task1.status.isTerminal = false)
    (hq : ∀ x ∈ ast1.taskQueue, x ∈ ast.taskQueue ∨ x = tid) :
    QueueInv { s with tasks := setA s.tasks tid task1,
                      agentStates := setA s.agentStates aid ast1 } := by
  intro p hp tid' ht'
  rcases mem_setA hp with rfl | hold
  · rcases hq tid' ht' with hin | rfl
    · exact all_nonterminal_setA hterm
        (hInv (aid, ast) (mem_of_lookupA_eq_some hS) tid' hin)
    · simp only
      rw [lookupA_setA_self]
      simp [Option.all, hterm]
  · exact all_nonterminal_setA hterm (hInv p hold tid' ht')

/-- Writing any task record for an id that sits in no queue preserves the
invariant (the agent states are unchanged). -/
theorem queueInv_update_unqueued (s : OState) (tid : String) (task1 : Task)
    (hInv : QueueInv s)
    (hno : ∀ p ∈ s.agentStates, tid ∉ p.2.taskQueue) :
    QueueInv { s with tasks := setA s.tasks tid task1 } := by
  intro p hp tid' ht'
  have htne : tid' ≠ tid := fun hEq => hno p hp (hEq ▸ ht')
  rw [lookupA_setA_ne _ _ _ _ htne]
  exact hInv p hp tid' ht'

/-- Terminalizing a task while erasing it from the queue of its assigned
agent preserves the invariant, given the occupancy facts. -/
theorem queueInv_terminal_erase_update (s : OState) (tid aid : String) (task1 : Task)
    (ast ast2 : AgentState)
    (hInv : QueueInv s)
    (hnd : NodupKeys s.agentStates)
    (hso : SingleOcc s tid)
    (hS : lookupA s.agentStates aid = some ast)
    (hA : ((lookupA s.tasks tid).bind Task.assignedAgentId) = some aid)
    (hq2 : ast2.taskQueue = ast.taskQueue.erase tid) :
    QueueInv { s with tasks := setA s.tasks tid task1,
                      agentStates := setA s.agentStates aid ast2 } := by
  intro p hp tid' ht'
  rcases mem_setA_of_nodup hnd hp with rfl | ⟨hold, hne⟩
  · simp only at ht' ⊢
    rw [hq2] at ht'
    have hcnt : ast.taskQueue.count tid ≤ 1 :=
      (hso (aid, ast) (mem_of_lookupA_eq_some hS)).1
    have htne : tid' ≠ tid := by
      intro hEq
      subst hEq
      have h0 : (ast.taskQueue.erase tid').count tid' = 0 := by
        rw [List.count_erase_self]
        omega
      exact absurd ht' (List.count_eq_zero.mp h0)
    rw [lookupA_setA_ne _ _ _ _ htne]
    exact hInv (aid, ast) (mem_of_lookupA_eq_some hS) tid' (List.mem_of_mem_erase ht')
  · by_cases htne : tid' = tid
    · subst htne
      have hpa := (hso p hold).2 ht'
      rw [hA] at hpa
      injection hpa with hpa'
      exact absurd hpa'.symm hne
    · rw [lookupA_setA_ne _ _ _ _ htne]
      exact hInv p hold tid' ht'

/-- Replacing one agent state with an unchanged queue, while writing a
task record that keeps naming `aid` as assignee, preserves the occupancy
facts. -/
theorem singleOcc_busy_update (s : OState) (tid aid : String) (task1 : Task)
    (ast ast1 : AgentState)
    (hso : SingleOcc s tid)
    (hS : lookupA s.agentStates aid = some ast)
    (hq : ast1.taskQueue = ast.taskQueue)
    (hA : ((lookupA s.tasks tid).bind Task.assignedAgentId) = some aid)
    (hA1 : task1.assignedAgentId = some aid) :
    SingleOcc { s with tasks := setA s.tasks tid task1,
                       agentStates := setA s.agentStates aid ast1 } tid := by
  intro p hp
  rcases mem_setA hp with rfl | hold
  · constructor
    · simp only
      rw [hq]
      exact (hso (aid, ast) (mem_of_lookupA_eq_some hS)).1
    · intro _
      simp only
      rw [lookupA_setA_self]
      simpa using hA1
  · constructor
    · exact (hso p hold).1
    · intro ht
      have hpa := (hso p hold).2 ht
      rw [hA] at hpa
      injection hpa with hpa'
      rw [lookupA_setA_self, ← hpa']
      simpa using hA1

/-- The reachable state of the C4 counterexample: t1 is assigned (and in
the queue of a1), then a task_result message for t1 arrives. -/
def staleQueueState : OState :=
  (sendMessage assignedState "m2" 2
    { fromAgentId := "a1", toAgentId := "a1", type := .task_result,
      content := { emptyContent with taskId := some "t1", result := some "r" },
      priority := .medium }).1

/-- C4 counterexample: the task_result handler marks queued task t1
completed without removing it from the queue of a1, so the reachable
state after the message violates the invariant. -/
theorem task_result_leaves_terminal_task_queued :
    ¬ QueueInv staleQueueState ∧
    ((lookupA staleQueueState.tasks "t1").map Task.status = some TaskStatus.completed) ∧
    ((lookupA staleQueueState.agentStates "a1").map AgentState.taskQueue = some ["t1"]) := by
  refine ⟨by decide, by decide, by decide⟩

/-- C4 (amended): the queue invariant is preserved by the task-state
operations — `assignTask` (it enqueues a freshly `assigned` task),
`createTask` (as long as the generated id is in no queue), and
`cancelTask` / `executeTask` (they dequeue the task they terminalize,
given the occupancy facts reachable states satisfy) — but NOT by the
task_result and error_report handlers: those set the referenced task
completed/failed while leaving every agent queue unchanged, so a queued
task can become terminal while still queued. -/
theorem queue_invariant_scope :
    (∀ (s : OState) (tid : String) (aid? : Option String),
      QueueInv s → QueueInv (assignTask s tid aid?).1) ∧
    (∀ (s : OState) (genId : String) (now : Nat) (cfg : TaskConfig),
      QueueInv s → (∀ p ∈ s.agentStates, genId ∉ p.2.taskQueue) →
        QueueInv (createTask s genId now cfg).1) ∧
    (∀ (s : OState) (tid : String) (now : Nat),
      QueueInv s → NodupKeys s.agentStates → SingleOcc s tid →
        QueueInv (cancelTask s tid now).1) ∧
    (∀ (s : OState) (tid : String) (oc : StrategyOutcome) (t1 t2 : Nat),
      QueueInv s → NodupKeys s.agentStates → SingleOcc s tid →
        QueueInv (executeTask s tid oc t1 t2).1) ∧
    (∀ (s : OState) (m : AgentMessage),
      agentQueues (handleTaskResultMessage s m) = agentQueues s) ∧
    (∀ (s : OState) (m : AgentMessage),
      agentQueues (handleErrorReportMessage s m) = agentQueues s) := by
  refine ⟨?_, ?_, ?_, ?_, ?_, ?_⟩
  · -- assignTask
    intro s tid aid? hInv
    cases h : lookupA s.tasks tid with
    | none =>
      have hval : (assignTask s tid aid?).1 = s := by simp [assignTask, h]
      rw [hval]
      exact hInv
    | some task =>
      by_cases hp : task.status = TaskStatus.pending
      · cases hr : resolveAgentId s task aid? with
        | error e =>
          have hval : (assignTask s tid aid?).1 = s := by simp [assignTask, h, hp, hr]
          rw [hval]
          exact hInv
        | ok a =>
          cases ha : lookupA s.agentStates a with
          | none =>
            have hval : (assignTask s tid aid?).1 = s := by simp [assignTask, h, hp, hr, ha]
            rw [hval]
            exact hInv
          | some ast =>
            by_cases hd : checkTaskDependencies s task = []
            · simp only [assignTask, h, hp, hr, ha, hd, if_pos, ite_true]
              refine queueInv_nonterminal_update s tid a _ ast _ hInv ha rfl ?_
              intro x hx
              simp only at hx
              rcases List.mem_append.mp hx with h1 | h2
              · exact Or.inl h1
              · simp only [List.mem_singleton] at h2
                exact Or.inr h2
            · have hval : (assignTask s tid aid?).1 = s := by
                simp [assignTask, h, hp, hr, ha, hd]
              rw [hval]
              exact hInv
      · have hval : (assignTask s tid aid?).1 = s := by simp [assignTask, h, hp]
        rw [hval]
        exact hInv
  · -- createTask
    intro s genId now cfg hInv hno
    exact queueInv_update_unqueued s genId _ hInv hno
  · -- cancelTask
    intro s tid now hInv hnd hso
    cases h : lookupA s.tasks tid with
    | none =>
      have hval : (cancelTask s tid now).1 = s := by simp [cancelTask, h]
      rw [hval]
      exact hInv
    | some task =>
      cases hA : task.assignedAgentId with
      | none =>
        have hval : (cancelTask s tid now).1 = { s with tasks := setA s.tasks tid { task with status := TaskStatus.cancelled, completedAt := some now } } := by
          simp [cancelTask, h, hA]
        rw [hval]
        refine queueInv_update_unqueued s tid _ hInv ?_
        intro p hp ht
        have hpa := (hso p hp).2 ht
        rw [h] at hpa
        have hpa2 : task.assignedAgentId = some p.1 := hpa
        rw [hA] at hpa2
        exact absurd hpa2 (by simp)
      | some aid =>
        have hAbind : ((lookupA s.tasks tid).bind Task.assignedAgentId) = some aid := by
          rw [h]
          exact hA
        cases hS : lookupA s.agentStates aid with
        | none =>
          have hval : (cancelTask s tid now).1 = { s with tasks := setA s.tasks tid { task with status := TaskStatus.cancelled, completedAt := some now } } := by
            simp [cancelTask, h, hA, hS]
          rw [hval]
          refine queueInv_update_unqueued s tid _ hInv ?_
          intro p hp ht
          have hpa := (hso p hp).2 ht
          rw [hAbind] at hpa
          injection hpa with hpa'
          exact absurd hpa'.symm (lookupA_eq_none_forall hS p hp)
        | some ast =>
          by_cases hcur : ast.currentTask = some tid
          · simp only [cancelTask, h, hA, hS]
            rw [if_pos hcur]
            exact queueInv_terminal_erase_update s tid aid _ ast _ hInv hnd hso hS hAbind rfl
          · simp only [cancelTask, h, hA, hS]
            rw [if_neg hcur]
            exact queueInv_terminal_erase_update s tid aid _ ast _ hInv hnd hso hS hAbind rfl
  · -- executeTask
    intro s tid oc t1 t2 hInv hnd hso
    cases h : lookupA s.tasks tid with
    | none =>
      have hval : (executeTask s tid oc t1 t2).1 = s := by simp [executeTask, h]
      rw [hval]
      exact hInv
    | some task =>
      cases hA : task.assignedAgentId with
      | none =>
        have hval : (executeTask s tid oc t1 t2).1 = s := by simp [executeTask, h, hA]
        rw [hval]
        exact hInv
      | some aid =>
        cases hS : lookupA s.agentStates aid with
        | none =>
          have hval : (executeTask s tid oc t1 t2).1 = s := by simp [executeTask, h, hA, hS]
          rw [hval]
          exact hInv
        | some ast =>
          have hAbind : ((lookupA s.tasks tid).bind Task.assignedAgentId) = some aid := by
            rw [h]
            exact hA
          have hInv1 : QueueInv
              { s with
                tasks := setA s.tasks tid
                  { task with assignedAgentId := some aid,
                              status := TaskStatus.in_progress, startedAt := some t1 },
                agentStates := setA s.agentStates aid
                  { ast with status := AgentStatus.busy, currentTask := some tid } } :=
            queueInv_nonterminal_update s tid aid _ ast _ hInv hS rfl (fun x hx => Or.inl hx)
          have hnd1 : NodupKeys (setA s.agentStates aid
              { ast with status := AgentStatus.busy, currentTask := some tid }) :=
            nodupKeys_setA hnd
          have hso1 : SingleOcc
              { s with
                tasks := setA s.tasks tid
                  { task with assignedAgentId := some aid,
                              status := TaskStatus.in_progress, startedAt := some t1 },
                agentStates := setA s.agentStates aid
                  { ast with status := AgentStatus.busy, currentTask := some tid } } tid :=
            singleOcc_busy_update s tid aid _ ast _ hso hS rfl hAbind rfl
          cases hc : lookupA s.agents aid with
          | none =>
            simp only [executeTask, executeTaskByType, h, hA, hS, hc]
            refine queueInv_terminal_erase_update _ tid aid _ _ _ hInv1 hnd1 hso1
              (lookupA_setA_self _ _ _) ?_ ?_
            · rw [lookupA_setA_self]
              rfl
            · rfl
          | some cfg =>
            cases oc with
            | success rv =>
              simp only [executeTask, executeTaskByType, h, hA, hS, hc]
              refine queueInv_terminal_erase_update _ tid aid _ _ _ hInv1 hnd1 hso1
                (lookupA_setA_self _ _ _) ?_ ?_
              · rw [lookupA_setA_self]
                rfl
              · rfl
            | failure e =>
              simp only [executeTask, executeTaskByType, h, hA, hS, hc]
              refine queueInv_terminal_erase_update _ tid aid _ _ _ hInv1 hnd1 hso1
                (lookupA_setA_self _ _ _) ?_ ?_
              · rw [lookupA_setA_self]
                rfl
              · rfl
  · -- handleTaskResultMessage leaves every queue unchanged
    intro s m
    cases hmt : m.content.taskId with
    | none => simp [handleTaskResultMessage, hmt]
    | some taskId =>
      by_cases hb : taskId ≠ "" ∧ hasA s.tasks taskId = true
      · cases hl : lookupA s.tasks taskId with
        | none => simp [handleTaskResultMessage, hmt, hb, hl]
        | some task => simp [handleTaskResultMessage, hmt, hb, hl, agentQueues]
      · simp [handleTaskResultMessage, hmt, hb]
  · -- handleErrorReportMessage leaves every queue unchanged
    intro s m
    cases hmt : m.content.taskId with
    | none => simp [handleErrorReportMessage, hmt]
    | some taskId =>
      by_cases hb : taskId ≠ "" ∧ hasA s.tasks taskId = true
      · cases hl : lookupA s.tasks taskId with
        | none => simp [handleErrorReportMessage, hmt, hb, hl]
        | some task => simp [handleErrorReportMessage, hmt, hb, hl, agentQueues]
      · simp [handleErrorReportMessage, hmt, hb]

/-- C4 amended-claim witness: the preservation conjuncts evaluated on the
concrete assigned state (its invariant, key-nodup and occupancy
hypotheses hold by computation). -/
theorem queue_invariant_scope_witness :
    QueueInv (cancelTask assignedState "t1" 9).1 ∧
    QueueInv (executeTask assignedState "t1" (StrategyOutcome.success "ok") 2 3).1 :=
  ⟨queue_invariant_scope.2.2.1 assignedState "t1" 9
      (by decide) (by decide) (by decide),
   queue_invariant_scope.2.2.2.1 assignedState "t1" (StrategyOutcome.success "ok") 2 3
      (by decide) (by decide) (by decide)⟩

/-! ## Claim C7 — findBestAgent -/

/-- The score formula as the specification words it: 10 × capability
matches + 15 × specialization matches + 5 × successRate when the agent
has completed any tasks + 5 on a priority match − 2 × queue length.
The agent capabilities and priority come from its stored config (the
source reads `this.agents.get(id)!`). -/
def claimScore (s : OState) (task : Task) (aid : String) (state : AgentState) : ℚ :=
  let config := (lookupA s.agents aid).getD missingConfig
  10 * ((config.capabilities.filter
          (fun c => (getTaskRequiredCapabilities task.type).contains c)).length : ℚ) +
  15 * ((state.specializations.filter
          (fun sp => (getTaskRequiredSpecializations task.type).contains sp)).length : ℚ) +
  (if 0 < state.performance.tasksCompleted then
      5 * ((state.performance.tasksSuccessful : ℚ) / (state.performance.tasksCompleted : ℚ))
    else 0) +
  (if config.priority = task.priority then 5 else 0) -
  2 * ((state.taskQueue.length : ℚ))

/-- On performance counters with `tasksSuccessful ≤ tasksCompleted`
(which holds in every reachable state: the counters are only incremented
together or completed-only), the source scoring — which gates the success
bonus on `tasksSuccessful > 0` — computes exactly the specification
formula, which gates it on having completed any tasks. -/
theorem agentScore_eq_claimScore (s : OState) (task : Task) (aid : String)
    (state : AgentState)
    (hs : state.performance.tasksSuccessful ≤ state.performance.tasksCompleted) :
    agentScore task ((lookupA s.agents aid).getD missingConfig) state =
      claimScore s task aid state := by
  unfold agentScore claimScore
  simp only
  by_cases h1 : 0 < state.performance.tasksSuccessful
  · have h2 : 0 < state.performance.tasksCompleted := lt_of_lt_of_le h1 hs
    rw [if_pos h1, if_pos h2]
    by_cases hpr : ((lookupA s.agents aid).getD missingConfig).priority = task.priority
    · rw [if_pos hpr, if_pos hpr]
      ring
    · rw [if_neg hpr, if_neg hpr]
      ring
  · have h0 : state.performance.tasksSuccessful = 0 := Nat.eq_zero_of_not_pos h1
    rw [if_neg h1]
    by_cases h2 : 0 < state.performance.tasksCompleted
    · rw [if_pos h2, h0]
      by_cases hpr : ((lookupA s.agents aid).getD missingConfig).priority = task.priority
      · rw [if_pos hpr, if_pos hpr]
        simp only [Nat.cast_zero, zero_div, mul_zero, add_zero]
        ring
      · rw [if_neg hpr, if_neg hpr]
        simp only [Nat.cast_zero, zero_div, mul_zero, add_zero]
        ring
    · rw [if_neg h2]
      by_cases hpr : ((lookupA s.agents aid).getD missingConfig).priority = task.priority
      · rw [if_pos hpr, if_pos hpr]
        ring
      · rw [if_neg hpr, if_neg hpr]
        ring

theorem pickFirstMax_eq_none {l : List (String × ℚ)} :
    pickFirstMax l = none ↔ l = [] := by
  cases l with
  | nil => simp [pickFirstMax]
  | cons p rest =>
    simp only [pickFirstMax]
    cases pickFirstMax rest with
    | none => simp
    | some q =>
      by_cases h : p.2 < q.2
      · simp [h]
      · simp [h]

theorem pickFirstMax_cons_none {p : String × ℚ} {rest : List (String × ℚ)}
    (hres : pickFirstMax rest = none) : pickFirstMax (p :: rest) = some p := by
  simp [pickFirstMax, hres]

theorem pickFirstMax_cons_some {p q0 : String × ℚ} {rest : List (String × ℚ)}
    (hres : pickFirstMax rest = some q0) :
    pickFirstMax (p :: rest) = if p.2 < q0.2 then some q0 else some p := by
  simp [pickFirstMax, hres]

theorem pickFirstMax_mem {l : List (String × ℚ)} {q : String × ℚ}
    (h : pickFirstMax l = some q) : q ∈ l := by
  induction l generalizing q with
  | nil => simp [pickFirstMax] at h
  | cons p rest ih =>
    cases hres : pickFirstMax rest with
    | none =>
      rw [pickFirstMax_cons_none hres] at h
      injection h with h2
      exact h2 ▸ List.mem_cons_self _ _
    | some q0 =>
      rw [pickFirstMax_cons_some hres] at h
      by_cases hlt : p.2 < q0.2
      · rw [if_pos hlt] at h
        injection h with h2
        subst h2
        exact List.mem_cons_of_mem _ (ih hres)
      · rw [if_neg hlt] at h
        injection h with h2
        exact h2 ▸ List.mem_cons_self _ _

theorem pickFirstMax_max {l : List (String × ℚ)} {q : String × ℚ}
    (h : pickFirstMax l = some q) : ∀ p ∈ l, p.2 ≤ q.2 := by
  induction l generalizing q with
  | nil => simp [pickFirstMax] at h
  | cons p rest ih =>
    cases hres : pickFirstMax rest with
    | none =>
      rw [pickFirstMax_cons_none hres] at h
      injection h with h2
      subst h2
      intro x hx
      rcases List.mem_cons.mp hx with rfl | hxr
      · exact le_refl _
      · rw [pickFirstMax_eq_none.mp hres] at hxr
        simp at hxr
    | some q0 =>
      rw [pickFirstMax_cons_some hres] at h
      by_cases hlt : p.2 < q0.2
      · rw [if_pos hlt] at h
        injection h with h2
        subst h2
        intro x hx
        rcases List.mem_cons.mp hx with rfl | hxr
        · exact le_of_lt hlt
        · exact ih hres x hxr
      · rw [if_neg hlt] at h
        injection h with h2
        subst h2
        intro x hx
        rcases List.mem_cons.mp hx with rfl | hxr
        · exact le_refl _
        · exact le_trans (ih hres x hxr) (le_of_not_lt hlt)

/-- C7: on a registry whose performance counters are well formed
(`tasksSuccessful ≤ tasksCompleted`, as in every reachable state),
`findBestAgent` returns nothing exactly when no agent state is idle —
so it never selects a non-idle agent — and any returned agent is an idle
registry entry whose specification score is maximal among all idle
entries. -/
theorem findBestAgent_spec (s : OState) (task : Task)
    (hwf : ∀ p ∈ s.agentStates,
      p.2.performance.tasksSuccessful ≤ p.2.performance.tasksCompleted) :
    (findBestAgent s task = none ↔ ∀ p ∈ s.agentStates, p.2.status ≠ AgentStatus.idle) ∧
    (∀ a, findBestAgent s task = some a →
      ∃ p ∈ s.agentStates, p.1 = a ∧ p.2.status = AgentStatus.idle ∧
        ∀ q ∈ s.agentStates, q.2.status = AgentStatus.idle →
          claimScore s task q.1 q.2 ≤ claimScore s task p.1 p.2) := by
  constructor
  · unfold findBestAgent
    simp only [Option.map_eq_none']
    rw [pickFirstMax_eq_none, List.map_eq_nil_iff, List.filter_eq_nil_iff]
    constructor
    · intro h p hp
      have := h p hp
      simpa using this
    · intro h p hp
      simpa using h p hp
  · intro a ha
    unfold findBestAgent at ha
    simp only [Option.map_eq_some'] at ha
    obtain ⟨q, hq, hqa⟩ := ha
    have hqmem := pickFirstMax_mem hq
    rcases List.mem_map.mp hqmem with ⟨pr, hprmem, hpreq⟩
    have hprstates : pr ∈ s.agentStates := List.mem_of_mem_filter hprmem
    have hpridle : pr.2.status = AgentStatus.idle := by
      have := List.of_mem_filter hprmem
      simpa using this
    refine ⟨pr, hprstates, ?_, hpridle, ?_⟩
    · rw [← hqa, ← hpreq]
    · intro qq hqqmem hqqidle
      have hqqfilter : qq ∈ s.agentStates.filter
          (fun p => p.2.status = AgentStatus.idle) :=
        List.mem_filter.mpr ⟨hqqmem, by simp [hqqidle]⟩
      have hqqscored :
          (qq.1, agentScore task ((lookupA s.agents qq.1).getD missingConfig) qq.2) ∈
            (s.agentStates.filter (fun p => p.2.status = AgentStatus.idle)).map
              (fun p => (p.1, agentScore task ((lookupA s.agents p.1).getD missingConfig) p.2)) :=
        List.mem_map_of_mem _ hqqfilter
      have hle := pickFirstMax_max hq _ hqqscored
      have hq2 : q.2 = agentScore task ((lookupA s.agents pr.1).getD missingConfig) pr.2 := by
        rw [← hpreq]
      calc claimScore s task qq.1 qq.2
          = agentScore task ((lookupA s.agents qq.1).getD missingConfig) qq.2 :=
            (agentScore_eq_claimScore s task qq.1 qq.2 (hwf qq hqqmem)).symm
        _ ≤ q.2 := hle
        _ = agentScore task ((lookupA s.agents pr.1).getD missingConfig) pr.2 := hq2
        _ = claimScore s task pr.1 pr.2 :=
            agentScore_eq_claimScore s task pr.1 pr.2 (hwf pr hprstates)

/-- A concrete coding task for the C7 witness. -/
def c7Task : Task :=
  { id := "t9", description := "write code", type := TaskType.coding,
    priority := TaskPriority.medium, assignedAgentId := none,
    status := TaskStatus.pending, dependencies := [], result := none,
    error := none, createdAt := 0, startedAt := none, completedAt := none,
    estimatedDuration := none, actualDuration := none, parentTaskId := none,
    subtasks := [] }

/-- C7 witness: the characterization evaluated on the concrete registry
with the one idle agent a1, which findBestAgent indeed returns. -/
theorem findBestAgent_spec_witness :
    ∃ p ∈ assignedState.agentStates, p.1 = "a1" ∧ p.2.status = AgentStatus.idle ∧
      ∀ q ∈ assignedState.agentStates, q.2.status = AgentStatus.idle →
        claimScore assignedState c7Task q.1 q.2 ≤
          claimScore assignedState c7Task p.1 p.2 :=
  (findBestAgent_spec assignedState c7Task (by decide)).2 "a1" (by decide)

end AutoAI
